import Mathlib

/-
Verification of `champ/parameter_estimation.py`.

The Python module implements an iterative fixed-point estimation of
resolution parameters (gamma, and omega for multilayer graphs) for
modularity-based community detection, alternating between an external
modularity-maximization oracle (the `louvain` library) and closed-form
SBM parameter estimates computed from the returned partition.

Embedding conventions:
  - Edge weights and all parameters are rationals (`ℚ`), standing in for
    the Python floats; the claims under verification are exact arithmetic
    identities and control-flow properties, not rounding facts.
  - `math.log` is an external real function; it is abstracted as an
    explicit argument `lg : ℚ → ℚ` to every definition that uses it.
    All verified properties hold for every choice of `lg`.
  - The louvain oracle is abstracted as a function argument returning a
    `Part` (community membership plus community count), matching the
    partition interface the module reads (`partition.membership`,
    `len(partition)`).
  - Python in-place array accumulation (`lst[i] += w`) is modelled by
    function update on `ℕ → ℚ` accumulators.
  - Python division raises `ZeroDivisionError` on a zero denominator;
    divisions reachable with a zero denominator are modelled with
    `qdivE`, which returns `Except`.
-/

/-- A weighted edge, as iterated by `for e in G.es` (igraph edge with
`e.source`, `e.target`, `e['weight']`). -/
structure Edge where
  src : ℕ
  tgt : ℕ
  w : ℚ
deriving Repr, DecidableEq

/-- A partition as returned by the louvain oracle: community membership per
vertex and the community count `K = len(partition)`. -/
structure Partition where
  mem : ℕ → ℕ
  K : ℕ

/-- Errors raised by the module (all are Python `ValueError` /
`AssertionError` / `ZeroDivisionError`; we keep them apart by site and
record the values interpolated into the message). -/
inductive RunError where
  | degenerateMono (gamma : ℚ)
  | degenerateML (gamma omega : ℚ)
  | invalidModel (msg : String)
  | sizeMismatch
  | crossLayerEdge (src tgt : ℕ)
  | divByZero
deriving Repr, DecidableEq

/-- Python division, which raises `ZeroDivisionError` on a zero
denominator. -/
def qdivE (a b : ℚ) : Except RunError ℚ :=
  if b = 0 then .error .divByZero else .ok (a / b)

/-- One in-place accumulation `acc[i] += x` on a Python list, modelled on a
total function. -/
def addAt (acc : ℕ → ℚ) (i : ℕ) (x : ℚ) : ℕ → ℚ :=
  Function.update acc i (acc i + x)

/-- `addAt` read back: the bumped cell grows by `x`, others are unchanged. -/
lemma addAt_apply (acc : ℕ → ℚ) (i : ℕ) (x : ℚ) (r : ℕ) :
    addAt acc i x r = acc r + (if i = r then x else 0) := by
  unfold addAt
  by_cases h : r = i
  · subst h; simp [Function.update_apply]
  · rw [Function.update_apply, if_neg h, if_neg (fun he => h he.symm)]
    simp

namespace Mono

/-- The loop body of `kappa_r_list` accumulation (lines 32-34 of the
source): both endpoints' communities receive the edge weight. -/
def kappaStep (c : ℕ → ℕ) (acc : ℕ → ℚ) (e : Edge) : ℕ → ℚ :=
  addAt (addAt acc (c e.src) e.w) (c e.tgt) e.w

/-- `kappa_r_list` after the accumulation loop, as a function from
community index to accumulated weighted degree. -/
def kappa_r (es : List Edge) (c : ℕ → ℕ) : ℕ → ℚ :=
  es.foldl (kappaStep c) (fun _ => 0)

/-- `m_in = sum(e['weight'] * (community[e.source] == community[e.target])
for e in G.es)` (line 30). -/
def m_in (es : List Edge) (c : ℕ → ℕ) : ℚ :=
  (es.map (fun e => e.w * (if c e.src = c e.tgt then 1 else 0))).sum

/-- `sum_kappa_sqr = sum(x ** 2 for x in kappa_r_list)` (line 35), the list
having length `K = len(partition)`. -/
def sum_kappa_sqr (es : List Edge) (c : ℕ → ℕ) (K : ℕ) : ℚ :=
  ((List.range K).map (fun r => (kappa_r es c r) ^ 2)).sum

/-- `estimate_SBM_parameters` (monolayer, lines 28-42): returns
`(omega_in, omega_out)`.  `m` is the total edge weight computed at entry
(line 20); `K = len(partition)`. -/
def estimate_SBM_parameters (es : List Edge) (c : ℕ → ℕ) (K : ℕ) : ℚ × ℚ :=
  let m := (es.map Edge.w).sum
  let mi := m_in es c
  let S := sum_kappa_sqr es c K
  ((2 * mi) / (S / (2 * m)),
   if 1 < K then (2 * m - 2 * mi) / (2 * m - S / (2 * m)) else 0)

/-- Specification-side per-community weighted degree sum: each edge
contributes its weight to both endpoints' community sums (a self-loop
contributes twice to its community, as with degree). -/
def kappaSpec (es : List Edge) (c : ℕ → ℕ) (r : ℕ) : ℚ :=
  (es.map (fun e =>
    (if c e.src = r then e.w else 0) + (if c e.tgt = r then e.w else 0))).sum

/-- Specification-side `m_in`: total weight of edges whose endpoints share
a community, each edge counted once. -/
def m_inSpec (es : List Edge) (c : ℕ → ℕ) : ℚ :=
  ((es.filter (fun e => c e.src == c e.tgt)).map Edge.w).sum

/-- Specification-side `S = Σ_r κ_r²` over the `K` communities. -/
def sumKappaSqrSpec (es : List Edge) (c : ℕ → ℕ) (K : ℕ) : ℚ :=
  ((List.range K).map (fun r => (kappaSpec es c r) ^ 2)).sum

/-- Reading one `kappaStep` at community `r`. -/
lemma kappaStep_apply (c : ℕ → ℕ) (acc : ℕ → ℚ) (e : Edge) (r : ℕ) :
    kappaStep c acc e r =
      acc r + ((if c e.src = r then e.w else 0) +
               (if c e.tgt = r then e.w else 0)) := by
  unfold kappaStep
  rw [addAt_apply, addAt_apply]
  ring

/-- Unfolding the whole accumulation loop: the accumulated cell `r` equals
its initial value plus the per-edge contributions to community `r`. -/
lemma foldl_kappaStep (c : ℕ → ℕ) (es : List Edge) (acc : ℕ → ℚ) (r : ℕ) :
    es.foldl (kappaStep c) acc r =
      acc r + (es.map (fun e =>
        (if c e.src = r then e.w else 0) +
        (if c e.tgt = r then e.w else 0))).sum := by
  induction es generalizing acc with
  | nil => simp
  | cons e t ih =>
    rw [List.foldl_cons, ih (kappaStep c acc e), kappaStep_apply]
    simp [add_assoc]

/-- The imperative `kappa_r_list` accumulation computes the per-community
weighted degree sums. -/
lemma kappa_r_eq_spec (es : List Edge) (c : ℕ → ℕ) (r : ℕ) :
    kappa_r es c r = kappaSpec es c r := by
  unfold kappa_r kappaSpec
  rw [foldl_kappaStep]
  simp

/-- The generator-expression `m_in` equals the filtered-sum reading. -/
lemma m_in_eq_spec (es : List Edge) (c : ℕ → ℕ) :
    m_in es c = m_inSpec es c := by
  unfold m_in m_inSpec
  induction es with
  | nil => rfl
  | cons e t ih =>
    rw [List.map_cons, List.sum_cons, List.filter_cons]
    by_cases h : c e.src = c e.tgt
    · have hb : (c e.src == c e.tgt) = true := by simpa using h
      rw [if_pos h, mul_one, if_pos hb, List.map_cons, List.sum_cons, ih]
    · have hb : ¬((c e.src == c e.tgt) = true) := by simpa using h
      rw [if_neg h, mul_zero, zero_add, if_neg hb, ih]

/-- The `sum_kappa_sqr` of the source equals the spec-side `Σ_r κ_r²`. -/
lemma sum_kappa_sqr_eq_spec (es : List Edge) (c : ℕ → ℕ) (K : ℕ) :
    sum_kappa_sqr es c K = sumKappaSqrSpec es c K := by
  unfold sum_kappa_sqr sumKappaSqrSpec
  simp [kappa_r_eq_spec]

end Mono

/-- C4: For every weighted graph with total edge weight m > 0 and every
partition, the monolayer estimator returns ω_in = 2·m_in / (S / 2m), and
ω_out = (2m − 2·m_in) / (2m − S/2m) when the partition has more than one
community, else ω_out = 0; here m_in is the total weight of edges whose
endpoints share a community, and S = Σ_r κ_r² where each edge contributes
its weight to both endpoints' community degree sums (self-loops counted
twice, as with degree). -/
theorem c4_monolayer_estimator (es : List Edge) (c : ℕ → ℕ) (K : ℕ)
    (_hm : 0 < (es.map Edge.w).sum) :
    Mono.estimate_SBM_parameters es c K =
      (2 * Mono.m_inSpec es c /
         (Mono.sumKappaSqrSpec es c K / (2 * (es.map Edge.w).sum)),
       if 1 < K then
         (2 * (es.map Edge.w).sum - 2 * Mono.m_inSpec es c) /
           (2 * (es.map Edge.w).sum -
             Mono.sumKappaSqrSpec es c K / (2 * (es.map Edge.w).sum))
       else 0) := by
  unfold Mono.estimate_SBM_parameters
  rw [Mono.m_in_eq_spec, Mono.sum_kappa_sqr_eq_spec]

/-- Witness for C4 on a concrete two-community graph with total weight 2:
the estimator returns ω_in = 2 and ω_out = 0 there, matching the spec
formulas. -/
theorem c4_monolayer_estimator_witness :
    Mono.estimate_SBM_parameters [⟨0, 1, 1⟩, ⟨2, 3, 1⟩]
        (fun v => if v ≤ 1 then 0 else 1) 2 =
      (2 * Mono.m_inSpec [⟨0, 1, 1⟩, ⟨2, 3, 1⟩] (fun v => if v ≤ 1 then 0 else 1) /
         (Mono.sumKappaSqrSpec [⟨0, 1, 1⟩, ⟨2, 3, 1⟩] (fun v => if v ≤ 1 then 0 else 1) 2 /
           (2 * (([⟨0, 1, 1⟩, ⟨2, 3, 1⟩] : List Edge).map Edge.w).sum)),
       if 1 < 2 then
         (2 * (([⟨0, 1, 1⟩, ⟨2, 3, 1⟩] : List Edge).map Edge.w).sum -
            2 * Mono.m_inSpec [⟨0, 1, 1⟩, ⟨2, 3, 1⟩] (fun v => if v ≤ 1 then 0 else 1)) /
           (2 * (([⟨0, 1, 1⟩, ⟨2, 3, 1⟩] : List Edge).map Edge.w).sum -
             Mono.sumKappaSqrSpec [⟨0, 1, 1⟩, ⟨2, 3, 1⟩] (fun v => if v ≤ 1 then 0 else 1) 2 /
               (2 * (([⟨0, 1, 1⟩, ⟨2, 3, 1⟩] : List Edge).map Edge.w).sum))
       else 0) :=
  c4_monolayer_estimator [⟨0, 1, 1⟩, ⟨2, 3, 1⟩] (fun v => if v ≤ 1 then 0 else 1) 2
    (by norm_num)

namespace ML

/-- One in-place accumulation on a (layer, community)-indexed Python list
of lists. -/
def addAt2 (acc : ℕ × ℕ → ℚ) (i : ℕ × ℕ) (x : ℚ) : ℕ × ℕ → ℚ :=
  Function.update acc i (acc i + x)

/-- `m_t` accumulation (lines 132-136): per-layer total intralayer weight,
`m_t[layer_vec[e.source]] += e['weight']`. -/
def m_t (intra : List Edge) (layer : ℕ → ℕ) : ℕ → ℚ :=
  intra.foldl (fun acc e => addAt acc (layer e.src) e.w) (fun _ => 0)

/-- `m_t_in` accumulation (lines 153-157).  Note the source adds the edge
weight at the source's layer AND again at the target's layer; the guard
forces the two layers to coincide, so each qualifying edge's weight lands
twice in the same cell. -/
def m_t_in (intra : List Edge) (layer c : ℕ → ℕ) : ℕ → ℚ :=
  intra.foldl (fun acc e =>
    if c e.src = c e.tgt ∧ layer e.src = layer e.tgt then
      addAt (addAt acc (layer e.src) e.w) (layer e.tgt) e.w
    else acc) (fun _ => 0)

/-- `kappa_t_r_list` accumulation (lines 159-163): the layer index is taken
from the edge's source for both endpoint contributions. -/
def kappa_t_r (intra : List Edge) (layer c : ℕ → ℕ) : ℕ × ℕ → ℚ :=
  intra.foldl (fun acc e =>
    addAt2 (addAt2 acc (layer e.src, c e.src) e.w) (layer e.src, c e.tgt) e.w)
    (fun _ => 0)

/-- `sum_kappa_t_sqr` (line 164), for one layer `t`, over the `K`
communities. -/
def sum_kappa_t_sqr (intra : List Edge) (layer c : ℕ → ℕ) (K t : ℕ) : ℚ :=
  ((List.range K).map (fun r => (kappa_t_r intra layer c (t, r)) ^ 2)).sum

/-- `calculate_persistence` (lines 101-102, temporal/multilevel branch):
`sum(community[e.source] == community[e.target] for e in G_interlayer.es)`,
a count of interlayer edges whose endpoints share a community. -/
def calculate_persistence (inter : List Edge) (c : ℕ → ℕ) : ℕ :=
  (inter.map (fun e => if c e.src = c e.tgt then 1 else 0)).sum

/-- `estimate_SBM_parameters` (multilayer, lines 149-176): returns
`(theta_in, theta_out, p, K)`.  `N`, `T` are computed at entry
(lines 123-124); the total weight `m` (line 122) includes the interlayer
weights as read before they are overwritten with omega (line 125). -/
def estimate_SBM_parameters (intra inter : List Edge) (layer c : ℕ → ℕ)
    (N T K : ℕ) : ℚ × ℚ × ℚ × ℕ :=
  let m : ℚ := (intra.map Edge.w).sum + (inter.map Edge.w).sum
  let mt := m_t intra layer
  let mtin := m_t_in intra layer c
  let S := sum_kappa_t_sqr intra layer c K
  let theta_in :=
    ((List.range T).map (fun t => 2 * mtin t)).sum /
    ((List.range T).map (fun t => S t / (2 * mt t))).sum
  let theta_out :=
    if 1 < K then
      ((List.range T).map (fun t => 2 * m - 2 * mtin t)).sum /
      ((List.range T).map (fun t => 2 * mt t - S t / (2 * mt t))).sum
    else 0
  let pers := calculate_persistence inter c
  let p :=
    if 1 < K then
      max (((pers : ℚ) / ((N * (T - 1) : ℕ) : ℚ) - 1 / (K : ℚ)) /
             (1 - 1 / (K : ℚ))) 0
    else 1
  (theta_in, theta_out, p, K)

/-- Specification-side single-counted per-layer in-community weight, per
the claim's words: "m_t_in is the total intralayer edge weight within
layer t over edges whose endpoints share a community (each such edge's
weight counted once)". -/
def w_t_in (intra : List Edge) (layer c : ℕ → ℕ) (t : ℕ) : ℚ :=
  (intra.map (fun e =>
    if c e.src = c e.tgt ∧ layer e.src = t ∧ layer e.tgt = t then e.w
    else 0)).sum

/-- `theta_in` exactly as the claim states it: Σ_t 2·m_t_in / Σ_t (S_t /
2·m_t) with the single-counted `m_t_in` (`S_t` and `m_t` coincide with the
source's). -/
def theta_in_spec (intra : List Edge) (layer c : ℕ → ℕ) (T K : ℕ) : ℚ :=
  ((List.range T).map (fun t => 2 * w_t_in intra layer c t)).sum /
  ((List.range T).map (fun t =>
    sum_kappa_t_sqr intra layer c K t / (2 * m_t intra layer t))).sum

/-- `addAt2` read back. -/
lemma addAt2_apply (acc : ℕ × ℕ → ℚ) (i : ℕ × ℕ) (x : ℚ) (j : ℕ × ℕ) :
    addAt2 acc i x j = acc j + (if i = j then x else 0) := by
  unfold addAt2
  by_cases h : j = i
  · subst h; simp [Function.update_apply]
  · rw [Function.update_apply, if_neg h, if_neg (fun he => h he.symm)]
    simp

/-- Unfolding the `m_t` accumulation loop. -/
lemma m_t_foldl (layer : ℕ → ℕ) (es : List Edge) (acc : ℕ → ℚ) (t : ℕ) :
    (es.foldl (fun acc e => addAt acc (layer e.src) e.w) acc) t =
      acc t + (es.map (fun e => if layer e.src = t then e.w else 0)).sum := by
  induction es generalizing acc with
  | nil => simp
  | cons e l ih =>
    rw [List.foldl_cons, ih, addAt_apply]
    simp [add_assoc]

/-- `m_t` is the per-layer sum of intralayer edge weights (layer taken
from the edge's source). -/
lemma m_t_eq (intra : List Edge) (layer : ℕ → ℕ) (t : ℕ) :
    m_t intra layer t =
      (intra.map (fun e => if layer e.src = t then e.w else 0)).sum := by
  unfold m_t
  rw [m_t_foldl]
  simp

/-- Unfolding the `m_t_in` accumulation loop: under the guard the weight is
deposited at both endpoints' (equal) layers. -/
lemma m_t_in_foldl (layer c : ℕ → ℕ) (es : List Edge) (acc : ℕ → ℚ)
    (t : ℕ) :
    (es.foldl (fun acc e =>
        if c e.src = c e.tgt ∧ layer e.src = layer e.tgt then
          addAt (addAt acc (layer e.src) e.w) (layer e.tgt) e.w
        else acc) acc) t =
      acc t + (es.map (fun e =>
        if c e.src = c e.tgt ∧ layer e.src = layer e.tgt then
          (if layer e.src = t then e.w else 0) +
          (if layer e.tgt = t then e.w else 0)
        else 0)).sum := by
  induction es generalizing acc with
  | nil => simp
  | cons e l ih =>
    rw [List.foldl_cons, ih]
    by_cases h : c e.src = c e.tgt ∧ layer e.src = layer e.tgt
    · rw [if_pos h, addAt_apply, addAt_apply, List.map_cons, List.sum_cons,
        if_pos h]
      ring
    · rw [if_neg h, List.map_cons, List.sum_cons, if_neg h, zero_add]

/-- The divergence behind C1: the source's `m_t_in` is exactly twice the
single-counted in-community weight of layer `t`, for every input. -/
lemma m_t_in_eq_double (intra : List Edge) (layer c : ℕ → ℕ) (t : ℕ) :
    m_t_in intra layer c t = 2 * w_t_in intra layer c t := by
  unfold m_t_in w_t_in
  rw [m_t_in_foldl, zero_add, ← List.sum_map_mul_left]
  congr 1
  apply List.map_congr_left
  intro e _
  by_cases hc : c e.src = c e.tgt
  · by_cases hl : layer e.src = layer e.tgt
    · rw [if_pos ⟨hc, hl⟩]
      by_cases ht : layer e.src = t
      · rw [if_pos ht, if_pos (hl ▸ ht), if_pos ⟨hc, ht, hl ▸ ht⟩]
        ring
      · rw [if_neg ht, if_neg (fun h => ht (hl.symm ▸ h)),
          if_neg (fun h => ht h.2.1)]
        ring
    · rw [if_neg (fun h => hl h.2), if_neg (fun h => hl (h.2.1.trans h.2.2.symm))]
      ring
  · rw [if_neg (fun h => hc h.1), if_neg (fun h => hc h.1)]
    ring

/-- Unfolding the `kappa_t_r_list` accumulation loop. -/
lemma kappa_t_r_foldl (layer c : ℕ → ℕ) (es : List Edge)
    (acc : ℕ × ℕ → ℚ) (j : ℕ × ℕ) :
    (es.foldl (fun acc e =>
        addAt2 (addAt2 acc (layer e.src, c e.src) e.w)
          (layer e.src, c e.tgt) e.w) acc) j =
      acc j + (es.map (fun e =>
        (if (layer e.src, c e.src) = j then e.w else 0) +
        (if (layer e.src, c e.tgt) = j then e.w else 0))).sum := by
  induction es generalizing acc with
  | nil => simp
  | cons e l ih =>
    rw [List.foldl_cons, ih, addAt2_apply, addAt2_apply]
    simp only [List.map_cons, List.sum_cons]
    ring

/-- `kappa_t_r` as a per-(layer, community) sum: each edge contributes its
weight at its source's layer, once for each endpoint's community. -/
lemma kappa_t_r_eq (intra : List Edge) (layer c : ℕ → ℕ) (j : ℕ × ℕ) :
    kappa_t_r intra layer c j =
      (intra.map (fun e =>
        (if (layer e.src, c e.src) = j then e.w else 0) +
        (if (layer e.src, c e.tgt) = j then e.w else 0))).sum := by
  unfold kappa_t_r
  rw [kappa_t_r_foldl]
  simp

/-- The persistence count as a filtered length, matching "the number of
interlayer edges whose endpoints share a community". -/
lemma calculate_persistence_eq (inter : List Edge) (c : ℕ → ℕ) :
    calculate_persistence inter c =
      (inter.filter (fun e => c e.src == c e.tgt)).length := by
  unfold calculate_persistence
  induction inter with
  | nil => rfl
  | cons e t ih =>
    rw [List.map_cons, List.sum_cons, List.filter_cons]
    by_cases h : c e.src = c e.tgt
    · have hb : (c e.src == c e.tgt) = true := by simpa using h
      rw [if_pos h, if_pos hb, List.length_cons, ih, add_comm]
    · have hb : ¬((c e.src == c e.tgt) = true) := by simpa using h
      rw [if_neg h, if_neg hb, ih, zero_add]

end ML

/-- C1 (code bug): for every input, the source's `theta_in` is exactly
twice the claim's formula Σ_t 2·m_t_in / Σ_t (S_t / 2·m_t) with the
single-counted `m_t_in` — the source adds each qualifying edge's weight to
`m_t_in` at both endpoints.  Concretely, on a two-layer graph with three
unit intralayer edges per layer (two in-community, one across communities),
four interlayer edges and membership 0,0,1,1,0,0,1,1 (K = 2), the source
computes theta_in = 8/3 where the claimed formula gives 4/3. -/
theorem c1_theta_in_doubled :
    (∀ (intra inter : List Edge) (layer c : ℕ → ℕ) (N T K : ℕ),
      (ML.estimate_SBM_parameters intra inter layer c N T K).1 =
        2 * ML.theta_in_spec intra layer c T K) ∧
    ML.theta_in_spec
        [⟨0, 1, 1⟩, ⟨2, 3, 1⟩, ⟨0, 2, 1⟩, ⟨4, 5, 1⟩, ⟨6, 7, 1⟩, ⟨4, 6, 1⟩]
        (fun v => if v ≤ 3 then 0 else 1)
        (fun v => if v % 4 ≤ 1 then 0 else 1) 2 2 = 4 / 3 ∧
    (ML.estimate_SBM_parameters
        [⟨0, 1, 1⟩, ⟨2, 3, 1⟩, ⟨0, 2, 1⟩, ⟨4, 5, 1⟩, ⟨6, 7, 1⟩, ⟨4, 6, 1⟩]
        [⟨0, 4, 1⟩, ⟨1, 5, 1⟩, ⟨2, 6, 1⟩, ⟨3, 7, 1⟩]
        (fun v => if v ≤ 3 then 0 else 1)
        (fun v => if v % 4 ≤ 1 then 0 else 1) 4 2 2).1 = 8 / 3 := by
  have hgen : ∀ (intra inter : List Edge) (layer c : ℕ → ℕ) (N T K : ℕ),
      (ML.estimate_SBM_parameters intra inter layer c N T K).1 =
        2 * ML.theta_in_spec intra layer c T K := by
    intro intra inter layer c N T K
    unfold ML.estimate_SBM_parameters ML.theta_in_spec
    simp only
    rw [← mul_div_assoc]
    congr 1
    have hmap : (List.range T).map
        (fun t => 2 * ML.m_t_in intra layer c t) =
        (List.range T).map (fun t => 2 * (2 * ML.w_t_in intra layer c t)) := by
      apply List.map_congr_left
      intro t _
      rw [ML.m_t_in_eq_double]
    rw [hmap, List.sum_map_mul_left]
  have hspec : ML.theta_in_spec
      [⟨0, 1, 1⟩, ⟨2, 3, 1⟩, ⟨0, 2, 1⟩, ⟨4, 5, 1⟩, ⟨6, 7, 1⟩, ⟨4, 6, 1⟩]
      (fun v => if v ≤ 3 then 0 else 1)
      (fun v => if v % 4 ≤ 1 then 0 else 1) 2 2 = 4 / 3 := by
    have hr : List.range 2 = [0, 1] := rfl
    unfold ML.theta_in_spec ML.w_t_in ML.sum_kappa_t_sqr
    rw [hr]
    norm_num [ML.kappa_t_r_eq, ML.m_t_eq, Prod.ext_iff]
  refine ⟨hgen, hspec, ?_⟩
  rw [hgen, hspec]
  norm_num

/-- C5 (counterexample): with two vertices per layer across two layers
(N = 2, T = 2, K = 2) and four persisting interlayer edges — more than
N·(T−1) = 2 — the source computes p = 3, so p does not always lie in
[0, 1]. -/
theorem c5_counterexample :
    (ML.estimate_SBM_parameters
        [⟨0, 1, 1⟩, ⟨2, 3, 1⟩]
        [⟨0, 2, 1⟩, ⟨0, 2, 1⟩, ⟨1, 3, 1⟩, ⟨1, 3, 1⟩]
        (fun v => if v ≤ 1 then 0 else 1)
        (fun v => v % 2) 2 2 2).2.2.1 = 3 ∧
    ¬((3 : ℚ) ≤ 1) := by
  constructor
  · unfold ML.estimate_SBM_parameters ML.calculate_persistence
    simp only
    rw [if_pos (by norm_num)]
    norm_num
  · norm_num

/-- C5 (amended): persistence is the count of interlayer edges whose
endpoints share a community, and p = max((pers/(N·(T−1)) − 1/K)/(1 − 1/K), 0)
when K > 1, else p = 1.  Consequently p ≥ 0 always; p ≤ 1 holds provided
the persisting-edge count does not exceed N·(T−1) (with K > 1, N > 0,
T > 1) — with more persisting interlayer edges than N·(T−1), p exceeds 1
(see the counterexample). -/
theorem c5_persistence_amended (intra inter : List Edge) (layer c : ℕ → ℕ)
    (N T K : ℕ) :
    ML.calculate_persistence inter c =
      (inter.filter (fun e => c e.src == c e.tgt)).length ∧
    (1 < K →
      (ML.estimate_SBM_parameters intra inter layer c N T K).2.2.1 =
        max (((ML.calculate_persistence inter c : ℚ) /
                ((N * (T - 1) : ℕ) : ℚ) - 1 / (K : ℚ)) / (1 - 1 / (K : ℚ)))
          0) ∧
    (K ≤ 1 →
      (ML.estimate_SBM_parameters intra inter layer c N T K).2.2.1 = 1) ∧
    0 ≤ (ML.estimate_SBM_parameters intra inter layer c N T K).2.2.1 ∧
    (1 < K → 0 < N → 1 < T →
      ML.calculate_persistence inter c ≤ N * (T - 1) →
      (ML.estimate_SBM_parameters intra inter layer c N T K).2.2.1 ≤ 1) := by
  have hp : (ML.estimate_SBM_parameters intra inter layer c N T K).2.2.1 =
      if 1 < K then
        max (((ML.calculate_persistence inter c : ℚ) /
                ((N * (T - 1) : ℕ) : ℚ) - 1 / (K : ℚ)) / (1 - 1 / (K : ℚ)))
          0
      else 1 := by
    unfold ML.estimate_SBM_parameters
    simp only
  refine ⟨rfl.trans (ML.calculate_persistence_eq inter c), ?_, ?_, ?_, ?_⟩
  · intro hK
    rw [hp, if_pos hK]
  · intro hK
    rw [hp, if_neg (by omega)]
  · rw [hp]
    by_cases hK : 1 < K
    · rw [if_pos hK]
      exact le_max_right _ _
    · rw [if_neg hK]
      norm_num
  · intro hK hN hT hpers
    rw [hp, if_pos hK]
    have hK2 : (2 : ℚ) ≤ (K : ℚ) := by exact_mod_cast hK
    have hKpos : (0 : ℚ) < (K : ℚ) := by linarith
    have h1K : 1 / (K : ℚ) ≤ 1 / 2 := by
      apply one_div_le_one_div_of_le <;> linarith
    have hd : 0 < 1 - 1 / (K : ℚ) := by linarith
    have hdenpos : (0 : ℚ) < ((N * (T - 1) : ℕ) : ℚ) := by
      have : 0 < N * (T - 1) := Nat.mul_pos hN (by omega)
      exact_mod_cast this
    have hq : (ML.calculate_persistence inter c : ℚ) /
        ((N * (T - 1) : ℕ) : ℚ) ≤ 1 := by
      rw [div_le_one hdenpos]
      exact_mod_cast hpers
    apply max_le
    · rw [div_le_one hd]
      linarith
    · norm_num

/-- Witness for C5 (amended) on a concrete two-layer input with K = 2,
N = 2, T = 2 and two persisting interlayer edges (= N·(T−1)): p ≤ 1 and
all hypotheses hold. -/
theorem c5_persistence_amended_witness :
    (ML.estimate_SBM_parameters
        [⟨0, 1, 1⟩, ⟨2, 3, 1⟩] [⟨0, 2, 1⟩, ⟨1, 3, 1⟩]
        (fun v => if v ≤ 1 then 0 else 1)
        (fun v => v % 2) 2 2 2).2.2.1 ≤ 1 :=
  (c5_persistence_amended [⟨0, 1, 1⟩, ⟨2, 3, 1⟩] [⟨0, 2, 1⟩, ⟨1, 3, 1⟩]
      (fun v => if v ≤ 1 then 0 else 1) (fun v => v % 2) 2 2 2).2.2.2.2
    (by norm_num) (by norm_num) (by norm_num) (by decide)

namespace Mono

/-- `update_gamma` (monolayer, lines 44-47): the two-branch log-ratio
inversion.  `lg` abstracts `math.log`; the division is Python division
(`ZeroDivisionError` on a zero denominator). -/
def update_gamma (lg : ℚ → ℚ) (omega_in omega_out : ℚ) :
    Except RunError ℚ :=
  if omega_out = 0 then qdivE omega_in (lg omega_in)
  else qdivE (omega_in - omega_out) (lg omega_in - lg omega_out)

end Mono

namespace ML

/-- `update_gamma` (multilayer, lines 178-181): textually identical to the
monolayer updater, applied to `theta_in`, `theta_out`. -/
def update_gamma (lg : ℚ → ℚ) (theta_in theta_out : ℚ) :
    Except RunError ℚ :=
  if theta_out = 0 then qdivE theta_in (lg theta_in)
  else qdivE (theta_in - theta_out) (lg theta_in - lg theta_out)

/-- `update_omega` (lines 104-106, temporal/multilevel branch): returns
`log(1 + p*K/(1-p)) / (log(theta_in) - log(theta_out))` when `p < 1`, else
the configured `omega_max` (p = 1 means infinite optimal coupling,
clamped). -/
def update_omega (lg : ℚ → ℚ) (omega_max : ℚ)
    (theta_in theta_out p : ℚ) (K : ℕ) : Except RunError ℚ :=
  if p < 1 then
    qdivE (lg (1 + p * (K : ℚ) / (1 - p))) (lg theta_in - lg theta_out)
  else .ok omega_max

end ML

/-- C3: the γ update returns in / ln(in) when out = 0, and
(in − out) / (ln(in) − ln(out)) otherwise (whenever the respective
denominator is nonzero, i.e. Python's division does not raise), and the
monolayer and multilayer updaters are the same two-branch function. -/
theorem c3_update_gamma (lg : ℚ → ℚ) (win wout : ℚ) :
    (wout = 0 → lg win ≠ 0 →
      Mono.update_gamma lg win wout = .ok (win / lg win)) ∧
    (wout ≠ 0 → lg win - lg wout ≠ 0 →
      Mono.update_gamma lg win wout =
        .ok ((win - wout) / (lg win - lg wout))) ∧
    Mono.update_gamma lg win wout = ML.update_gamma lg win wout := by
  refine ⟨?_, ?_, ?_⟩
  · intro h0 hlg
    unfold Mono.update_gamma qdivE
    rw [if_pos h0, if_neg hlg]
  · intro h0 hlg
    unfold Mono.update_gamma qdivE
    rw [if_neg h0, if_neg hlg]
  · rfl

/-- Witness for C3: at lg = id, (in, out) = (2, 0) the first branch gives
2 / 2 = 1; at (3, 2) the second branch gives (3 − 2)/(3 − 2) = 1. -/
theorem c3_update_gamma_witness :
    Mono.update_gamma (fun q => q) 2 0 = .ok 1 ∧
    Mono.update_gamma (fun q => q) 3 2 = .ok 1 := by
  constructor
  · have h := (c3_update_gamma (fun q => q) 2 0).1 rfl (by norm_num)
    rw [h]
    norm_num
  · have h := (c3_update_gamma (fun q => q) 3 2).2.1 (by norm_num) (by norm_num)
    rw [h]
    norm_num

/-- C6: for the temporal/multilevel models the ω update returns
ln(1 + p·K/(1−p)) / (ln θ_in − ln θ_out) whenever p < 1 (and Python's
division does not raise), and returns the configured maximum ω_max when
p = 1. -/
theorem c6_update_omega (lg : ℚ → ℚ) (wmax tin tout p : ℚ) (K : ℕ) :
    (p < 1 → lg tin - lg tout ≠ 0 →
      ML.update_omega lg wmax tin tout p K =
        .ok (lg (1 + p * (K : ℚ) / (1 - p)) / (lg tin - lg tout))) ∧
    (p = 1 → ML.update_omega lg wmax tin tout p K = .ok wmax) := by
  constructor
  · intro hp hlg
    unfold ML.update_omega qdivE
    rw [if_pos hp, if_neg hlg]
  · intro hp
    unfold ML.update_omega
    rw [if_neg (by rw [hp]; exact lt_irrefl 1)]

/-- Witness for C6: at lg = id, θ_in = 3, θ_out = 2, p = 1/2, K = 2 the
formula branch yields 3; at p = 1 the clamp returns ω_max = 1000. -/
theorem c6_update_omega_witness :
    ML.update_omega (fun q => q) 1000 3 2 (1/2) 2 = .ok 3 ∧
    ML.update_omega (fun q => q) 1000 3 2 1 2 = .ok 1000 := by
  constructor
  · have h := (c6_update_omega (fun q => q) 1000 3 2 (1/2) 2).1
      (by norm_num) (by norm_num)
    rw [h]
    norm_num
  · exact (c6_update_omega (fun q => q) 1000 3 2 1 2).2 rfl

/-- C10: a density pair with 0 < out = in ≠ 1 passes the degeneracy check
(in ∉ {0, 1}, out ≠ 1) yet makes the γ update divide by zero: the guard
covers only out = 0, and for in = out the denominator ln(in) − ln(out)
vanishes for every log function. -/
theorem c10_update_gamma_div_by_zero (lg : ℚ → ℚ) (win wout : ℚ)
    (hpos : 0 < wout) (heq : wout = win) (hne1 : win ≠ 1) :
    (win ≠ 0 ∧ win ≠ 1 ∧ wout ≠ 1) ∧
    Mono.update_gamma lg win wout = .error .divByZero := by
  have hw0 : win ≠ 0 := by rw [← heq]; exact ne_of_gt hpos
  refine ⟨⟨hw0, hne1, heq ▸ hne1⟩, ?_⟩
  unfold Mono.update_gamma qdivE
  rw [if_neg (by rw [heq]; exact hw0), heq, sub_self, if_pos rfl]

/-- Witness for C10 at lg = id and in = out = 1/2: the check passes and the
update raises. -/
theorem c10_update_gamma_div_by_zero_witness :
    ((1 : ℚ)/2 ≠ 0 ∧ (1 : ℚ)/2 ≠ 1 ∧ (1 : ℚ)/2 ≠ 1) ∧
    Mono.update_gamma (fun q => q) (1/2) (1/2) = .error .divByZero :=
  c10_update_gamma_div_by_zero (fun q => q) (1/2) (1/2)
    (by norm_num) rfl (by norm_num)

namespace Mono

/-- The iteration loop of the monolayer entry point (lines 49-74), indexed
by the remaining iteration budget.  Returns the run's outcome — final γ
and the last partition, or the raised error — paired with the trace of γ
values passed to the oracle (one entry per `maximize_modularity` call).
The degeneracy test reproduces the source's duplicated
`omega_in == 1` disjunct. -/
def run (lg : ℚ → ℚ) (oracle : ℚ → Partition) (es : List Edge) (tol : ℚ) :
    ℕ → ℚ → Option Partition →
      Except RunError (ℚ × Option Partition) × List ℚ
  | 0, gamma, lastPart => (.ok (gamma, lastPart), [])
  | fuel + 1, gamma, _ =>
    let part := oracle gamma
    let est := estimate_SBM_parameters es part.mem part.K
    if est.1 = 0 ∨ est.1 = 1 ∨ est.1 = 1 then
      (.error (.degenerateMono gamma), [gamma])
    else
      match update_gamma lg est.1 est.2 with
      | .error e => (.error e, [gamma])
      | .ok g' =>
        if |g' - gamma| < tol then (.ok (g', some part), [gamma])
        else
          let r := run lg oracle es tol fuel g' (some part)
          (r.1, gamma :: r.2)

end Mono

/-- `iterative_monolayer_resolution_parameter_estimation` (lines 5-74).
`lg` abstracts `math.log`, `oracle` abstracts `louvain.find_partition`
at a given resolution parameter.  Edges are assumed to carry their
weights (the source defaults absent weights to 1.0 at ingestion). -/
def iterative_monolayer_resolution_parameter_estimation
    (lg : ℚ → ℚ) (oracle : ℚ → Partition) (es : List Edge)
    (gamma tol : ℚ) (max_iter : ℕ) :
    Except RunError (ℚ × Option Partition) × List ℚ :=
  Mono.run lg oracle es tol max_iter gamma none

namespace ML

/-- The iteration loop of the multilayer entry point (lines 183-211),
indexed by the remaining iteration budget.  The γ update (line 192) runs
before the ω update (line 193); the loop stops when both tolerance tests
pass at once (line 199). -/
def run (lg : ℚ → ℚ) (oracle : ℚ → ℚ → Partition)
    (intra inter : List Edge) (layer : ℕ → ℕ) (N T : ℕ)
    (gamma_tol omega_tol omega_max : ℚ) :
    ℕ → ℚ → ℚ → Option Partition →
      Except RunError (ℚ × ℚ × Option Partition) × List (ℚ × ℚ)
  | 0, gamma, omega, lastPart => (.ok (gamma, omega, lastPart), [])
  | fuel + 1, gamma, omega, _ =>
    let part := oracle gamma omega
    let est := estimate_SBM_parameters intra inter layer part.mem N T part.K
    if est.1 = 0 ∨ est.1 = 1 ∨ est.2.1 = 1 then
      (.error (.degenerateML gamma omega), [(gamma, omega)])
    else
      match update_gamma lg est.1 est.2.1 with
      | .error e => (.error e, [(gamma, omega)])
      | .ok g' =>
        match update_omega lg omega_max est.1 est.2.1 est.2.2.1 est.2.2.2 with
        | .error e => (.error e, [(gamma, omega)])
        | .ok w' =>
          if |g' - gamma| < gamma_tol ∧ |w' - omega| < omega_tol then
            (.ok (g', w', some part), [(gamma, omega)])
          else
            let r := run lg oracle intra inter layer N T gamma_tol omega_tol
              omega_max fuel g' w' (some part)
            (r.1, (gamma, omega) :: r.2)

end ML

/-- `iterative_multilayer_resolution_parameter_estimation` (lines 77-211).
Model dispatch (lines 100-115) runs first; then `T`, `N` and the total
weight are computed (lines 122-124), the layer-size assertion fires
(lines 127-128), and the per-edge intralayer assertion fires while
accumulating `m_t` (lines 132-136); only then can the loop make oracle
calls.  Python's `is` comparison on interned string literals is modelled
as string equality.  Returns the outcome and the trace of (γ, ω) oracle
calls. -/
def iterative_multilayer_resolution_parameter_estimation
    (lg : ℚ → ℚ) (oracle : ℚ → ℚ → Partition) (intra inter : List Edge)
    (layer_vec : List ℕ) (intraV interV : ℕ) (gamma omega : ℚ)
    (gamma_tol omega_tol omega_max : ℚ) (max_iter : ℕ) (model : String) :
    Except RunError (ℚ × ℚ × Option Partition) × List (ℚ × ℚ) :=
  if model = "temporal" ∨ model = "multilevel" then
    let T := layer_vec.foldl Nat.max 0 + 1
    let N := interV / T
    let layer := fun v => layer_vec.getD v 0
    if ¬(interV = intraV ∧ interV % T = 0 ∧ intraV % T = 0) then
      (.error .sizeMismatch, [])
    else
      match intra.find? (fun e => layer e.src != layer e.tgt) with
      | some e => (.error (.crossLayerEdge e.src e.tgt), [])
      | none =>
        ML.run lg oracle intra inter layer N T gamma_tol omega_tol omega_max
          max_iter gamma omega none
  else if model = "multiplex" then
    (.error (.invalidModel "Model multiplex not yet fully implemented"), [])
  else
    (.error (.invalidModel ("Model " ++ model ++ " not yet implemented")), [])

/-- C2: in every iteration of either loop, a degenerate density estimate
(monolayer: ω_in ∈ {0, 1}; multilayer: θ_in ∈ {0, 1} or θ_out = 1) makes
the run fail immediately with the error carrying the current parameter
values; the oracle-call trace contains exactly the one call that produced
the degenerate partition, so no parameter update and no further oracle
call happen. -/
theorem c2_degenerate_fatal :
    (∀ (lg : ℚ → ℚ) (oracle : ℚ → Partition) (es : List Edge) (tol : ℚ)
        (fuel : ℕ) (gamma : ℚ) (p : Option Partition),
      ((Mono.estimate_SBM_parameters es (oracle gamma).mem (oracle gamma).K).1 = 0 ∨
       (Mono.estimate_SBM_parameters es (oracle gamma).mem (oracle gamma).K).1 = 1) →
      Mono.run lg oracle es tol (fuel + 1) gamma p =
        (.error (.degenerateMono gamma), [gamma])) ∧
    (∀ (lg : ℚ → ℚ) (oracle : ℚ → ℚ → Partition) (intra inter : List Edge)
        (layer : ℕ → ℕ) (N T : ℕ) (gtol wtol wmax : ℚ) (fuel : ℕ)
        (gamma omega : ℚ) (p : Option Partition),
      ((ML.estimate_SBM_parameters intra inter layer (oracle gamma omega).mem
           N T (oracle gamma omega).K).1 = 0 ∨
       (ML.estimate_SBM_parameters intra inter layer (oracle gamma omega).mem
           N T (oracle gamma omega).K).1 = 1 ∨
       (ML.estimate_SBM_parameters intra inter layer (oracle gamma omega).mem
           N T (oracle gamma omega).K).2.1 = 1) →
      ML.run lg oracle intra inter layer N T gtol wtol wmax (fuel + 1)
          gamma omega p =
        (.error (.degenerateML gamma omega), [(gamma, omega)])) := by
  constructor
  · intro lg oracle es tol fuel gamma p h
    simp only [Mono.run]
    rw [if_pos (h.elim Or.inl (fun hb => Or.inr (Or.inl hb)))]
  · intro lg oracle intra inter layer N T gtol wtol wmax fuel gamma omega p h
    simp only [ML.run]
    rw [if_pos h]

/-- Witness for C2: a single-edge graph whose one-community partition gives
ω_in = 1 aborts the monolayer loop at once; a two-layer graph whose
partition has no in-community intralayer edge gives θ_in = 0 and aborts
the multilayer loop at once.  Both traces contain exactly one oracle
call. -/
theorem c2_degenerate_fatal_witness :
    Mono.run (fun q => q) (fun _ => ⟨fun _ => 0, 1⟩) [⟨0, 1, 1⟩] 1 1 1 none =
      (.error (.degenerateMono 1), [1]) ∧
    ML.run (fun q => q) (fun _ _ => ⟨fun v => v % 2, 2⟩)
        [⟨0, 1, 1⟩, ⟨2, 3, 1⟩] [⟨0, 2, 1⟩] (fun v => if v ≤ 1 then 0 else 1)
        2 2 1 1 1000 1 1 1 none =
      (.error (.degenerateML 1 1), [(1, 1)]) := by
  constructor
  · refine c2_degenerate_fatal.1 (fun q => q) (fun _ => ⟨fun _ => 0, 1⟩)
      [⟨0, 1, 1⟩] 1 0 1 none (Or.inr ?_)
    have hr1 : List.range 1 = [0] := rfl
    norm_num [Mono.estimate_SBM_parameters, Mono.m_in, Mono.sum_kappa_sqr,
      Mono.kappa_r_eq_spec, Mono.kappaSpec, hr1]
  · refine c2_degenerate_fatal.2 (fun q => q) (fun _ _ => ⟨fun v => v % 2, 2⟩)
      [⟨0, 1, 1⟩, ⟨2, 3, 1⟩] [⟨0, 2, 1⟩] (fun v => if v ≤ 1 then 0 else 1)
      2 2 1 1 1000 0 1 1 none (Or.inl ?_)
    have hr2 : List.range 2 = [0, 1] := rfl
    norm_num [ML.estimate_SBM_parameters, ML.m_t_in_eq_double, ML.w_t_in, hr2]

/-- No model string makes the generic invalid-model message (line 115)
collide with the multiplex message (line 113): the two format strings
differ in their suffixes, so the two error messages are always distinct. -/
lemma invalid_model_msg_ne (m : String) :
    "Model " ++ m ++ " not yet implemented" ≠
      "Model multiplex not yet fully implemented" := by
  intro h
  have hd : "Model ".data ++ (m.data ++ " not yet implemented".data) =
      "Model ".data ++ "multiplex not yet fully implemented".data :=
    congrArg String.data h
  have hd2 : m.data ++ " not yet implemented".data =
      "multiplex not yet fully implemented".data :=
    List.append_cancel_left hd
  have h20 : (" not yet implemented").data.length = 20 := by decide
  have h35 : ("multiplex not yet fully implemented").data.length = 35 := by
    decide
  have hlen : m.data.length = 15 := by
    have hl := congrArg List.length hd2
    rw [List.length_append, h20, h35] at hl
    omega
  have hsplit : ("multiplex not yet fully implemented").data =
      ("multiplex not y").data ++ ("et fully implemented").data := by decide
  rw [hsplit] at hd2
  have hinj := List.append_inj hd2 (by rw [hlen]; decide)
  exact absurd hinj.2 (by decide)

/-- C7: calling the multilayer entry point with model "multiplex" raises
the invalid-model error before any oracle call (empty call trace), and any
model name other than temporal/multilevel/multiplex raises the generic
invalid-model error, also before any oracle call, whose message always
differs from the multiplex one. -/
theorem c7_model_dispatch :
    (∀ (lg : ℚ → ℚ) (oracle : ℚ → ℚ → Partition) (intra inter : List Edge)
        (layer_vec : List ℕ) (intraV interV : ℕ) (gamma omega : ℚ)
        (gtol wtol wmax : ℚ) (max_iter : ℕ),
      iterative_multilayer_resolution_parameter_estimation lg oracle intra
          inter layer_vec intraV interV gamma omega gtol wtol wmax max_iter
          "multiplex" =
        (.error (.invalidModel "Model multiplex not yet fully implemented"),
         [])) ∧
    (∀ (model : String), model ≠ "temporal" → model ≠ "multilevel" →
      model ≠ "multiplex" →
      ∀ (lg : ℚ → ℚ) (oracle : ℚ → ℚ → Partition) (intra inter : List Edge)
        (layer_vec : List ℕ) (intraV interV : ℕ) (gamma omega : ℚ)
        (gtol wtol wmax : ℚ) (max_iter : ℕ),
      iterative_multilayer_resolution_parameter_estimation lg oracle intra
          inter layer_vec intraV interV gamma omega gtol wtol wmax max_iter
          model =
        (.error (.invalidModel ("Model " ++ model ++ " not yet implemented")),
         []) ∧
      RunError.invalidModel ("Model " ++ model ++ " not yet implemented") ≠
        RunError.invalidModel "Model multiplex not yet fully implemented") := by
  constructor
  · intro lg oracle intra inter layer_vec intraV interV gamma omega gtol
      wtol wmax max_iter
    unfold iterative_multilayer_resolution_parameter_estimation
    rw [if_neg (by decide), if_pos rfl]
  · intro model h1 h2 h3 lg oracle intra inter layer_vec intraV interV gamma
      omega gtol wtol wmax max_iter
    constructor
    · unfold iterative_multilayer_resolution_parameter_estimation
      rw [if_neg (fun hc => hc.elim h1 h2), if_neg h3]
    · intro h
      have : "Model " ++ model ++ " not yet implemented" =
          "Model multiplex not yet fully implemented" := by
        injection h
      exact invalid_model_msg_ne model this

/-- Witness for C7's generic branch at model = "foo": the entry returns the
generic invalid-model error untouched by the (arbitrary) oracle, and its
message differs from the multiplex one. -/
theorem c7_model_dispatch_witness :
    iterative_multilayer_resolution_parameter_estimation (fun q => q)
        (fun _ _ => ⟨fun _ => 0, 1⟩) [] [] [0] 1 1 1 1 1 1 1000 25 "foo" =
      (.error (.invalidModel ("Model " ++ "foo" ++ " not yet implemented")),
       []) ∧
    RunError.invalidModel ("Model " ++ "foo" ++ " not yet implemented") ≠
      RunError.invalidModel "Model multiplex not yet fully implemented" :=
  c7_model_dispatch.2 "foo" (by decide) (by decide) (by decide)
    (fun q => q) (fun _ _ => ⟨fun _ => 0, 1⟩) [] [] [0] 1 1 1 1 1 1 1000 25

/-- Classifier for the structural (assertion) errors of the multilayer
entry point. -/
def RunError.isStructural : RunError → Bool
  | .sizeMismatch => true
  | .crossLayerEdge _ _ => true
  | _ => false

/-- C8: with a valid model, if some intralayer edge crosses layers, or the
two vertex counts differ, or either is not divisible by the layer count T,
the multilayer entry point fails with a structural error and the oracle is
never called (empty call trace). -/
theorem c8_structural_checks (lg : ℚ → ℚ) (oracle : ℚ → ℚ → Partition)
    (intra inter : List Edge) (layer_vec : List ℕ) (intraV interV : ℕ)
    (gamma omega gtol wtol wmax : ℚ) (max_iter : ℕ) (model : String)
    (hmodel : model = "temporal" ∨ model = "multilevel")
    (hbad : (∃ e ∈ intra,
        layer_vec.getD e.src 0 ≠ layer_vec.getD e.tgt 0) ∨
      interV ≠ intraV ∨
      interV % (layer_vec.foldl Nat.max 0 + 1) ≠ 0 ∨
      intraV % (layer_vec.foldl Nat.max 0 + 1) ≠ 0) :
    (iterative_multilayer_resolution_parameter_estimation lg oracle intra
        inter layer_vec intraV interV gamma omega gtol wtol wmax max_iter
        model).2 = [] ∧
    ∃ err,
      (iterative_multilayer_resolution_parameter_estimation lg oracle intra
          inter layer_vec intraV interV gamma omega gtol wtol wmax max_iter
          model).1 = .error err ∧ err.isStructural = true := by
  unfold iterative_multilayer_resolution_parameter_estimation
  rw [if_pos hmodel]
  by_cases hsz : interV = intraV ∧
      interV % (layer_vec.foldl Nat.max 0 + 1) = 0 ∧
      intraV % (layer_vec.foldl Nat.max 0 + 1) = 0
  · rw [if_neg (not_not_intro hsz)]
    obtain ⟨e, he, hcross⟩ : ∃ e ∈ intra,
        layer_vec.getD e.src 0 ≠ layer_vec.getD e.tgt 0 := by
      rcases hbad with h | h | h | h
      · exact h
      · exact absurd hsz.1 h
      · exact absurd hsz.2.1 h
      · exact absurd hsz.2.2 h
    have hfind : ((intra.find? (fun e =>
        layer_vec.getD e.src 0 != layer_vec.getD e.tgt 0))).isSome := by
      rw [List.find?_isSome]
      exact ⟨e, he, by simpa using hcross⟩
    obtain ⟨e', he'⟩ := Option.isSome_iff_exists.mp hfind
    rw [he']
    exact ⟨rfl, .crossLayerEdge e'.src e'.tgt, rfl, rfl⟩
  · rw [if_pos hsz]
    exact ⟨rfl, .sizeMismatch, rfl, rfl⟩

/-- Witness for C8 on a concrete malformed input: one intralayer edge whose
endpoints lie in layers 0 and 1. -/
theorem c8_structural_checks_witness :
    (iterative_multilayer_resolution_parameter_estimation (fun q => q)
        (fun _ _ => ⟨fun _ => 0, 1⟩) [⟨0, 1, 1⟩] [] [0, 1] 2 2 1 1 1 1 1000
        25 "temporal").2 = [] ∧
    ∃ err,
      (iterative_multilayer_resolution_parameter_estimation (fun q => q)
          (fun _ _ => ⟨fun _ => 0, 1⟩) [⟨0, 1, 1⟩] [] [0, 1] 2 2 1 1 1 1 1000
          25 "temporal").1 = .error err ∧ err.isStructural = true :=
  c8_structural_checks (fun q => q) (fun _ _ => ⟨fun _ => 0, 1⟩) [⟨0, 1, 1⟩]
    [] [0, 1] 2 2 1 1 1 1 1000 25 "temporal" (Or.inl rfl)
    (Or.inl ⟨⟨0, 1, 1⟩, by decide⟩)

namespace Mono

/-- The density estimate the loop computes from the oracle's partition at
resolution γ. -/
def estOf (oracle : ℚ → Partition) (es : List Edge) (gamma : ℚ) : ℚ × ℚ :=
  estimate_SBM_parameters es (oracle gamma).mem (oracle gamma).K

/-- The γ produced by one successful loop iteration (oracle call, estimate,
update) from γ. -/
def next (lg : ℚ → ℚ) (oracle : ℚ → Partition) (es : List Edge)
    (gamma : ℚ) : ℚ :=
  match update_gamma lg (estOf oracle es gamma).1 (estOf oracle es gamma).2 with
  | .ok g' => g'
  | .error _ => 0

/-- One iteration from γ neither degenerates, nor fails the γ update, nor
meets the tolerance test. -/
def continuesAt (lg : ℚ → ℚ) (oracle : ℚ → Partition) (es : List Edge)
    (tol gamma : ℚ) : Prop :=
  ¬((estOf oracle es gamma).1 = 0 ∨ (estOf oracle es gamma).1 = 1) ∧
  update_gamma lg (estOf oracle es gamma).1 (estOf oracle es gamma).2 =
    .ok (next lg oracle es gamma) ∧
  ¬(|next lg oracle es gamma - gamma| < tol)

/-- All `fuel` budgeted iterations keep iterating. -/
def continues (lg : ℚ → ℚ) (oracle : ℚ → Partition) (es : List Edge)
    (tol : ℚ) (fuel : ℕ) (gamma : ℚ) : Prop :=
  ∀ i < fuel, continuesAt lg oracle es tol ((next lg oracle es)^[i] gamma)

/-- A continuing iteration unfolds one loop step to the recursive call with
the updated γ and the freshly obtained partition. -/
lemma run_succ_continue (lg : ℚ → ℚ) (oracle : ℚ → Partition)
    (es : List Edge) (tol : ℚ) (n : ℕ) (gamma : ℚ) (p : Option Partition)
    (hAt : continuesAt lg oracle es tol gamma) :
    run lg oracle es tol (n + 1) gamma p =
      ((run lg oracle es tol n (next lg oracle es gamma)
          (some (oracle gamma))).1,
       gamma :: (run lg oracle es tol n (next lg oracle es gamma)
          (some (oracle gamma))).2) := by
  obtain ⟨hdeg, hupd, htol⟩ := hAt
  simp only [run]
  rw [if_neg (fun hc =>
    hdeg (hc.elim Or.inl (fun hb => hb.elim Or.inr Or.inr)))]
  split
  · next e heq =>
    rw [show update_gamma lg
        (estimate_SBM_parameters es (oracle gamma).mem (oracle gamma).K).1
        (estimate_SBM_parameters es (oracle gamma).mem (oracle gamma).K).2 =
        .ok (next lg oracle es gamma) from hupd] at heq
    cases heq
  · next g' heq =>
    rw [show update_gamma lg
        (estimate_SBM_parameters es (oracle gamma).mem (oracle gamma).K).1
        (estimate_SBM_parameters es (oracle gamma).mem (oracle gamma).K).2 =
        .ok (next lg oracle es gamma) from hupd] at heq
    injection heq with hg
    subst hg
    rw [if_neg htol]

/-- A run all of whose iterations keep iterating exhausts its budget and
returns the final γ with the last partition obtained from the oracle. -/
lemma run_exhaust (lg : ℚ → ℚ) (oracle : ℚ → Partition) (es : List Edge)
    (tol : ℚ) :
    ∀ (fuel : ℕ) (gamma : ℚ) (p : Option Partition),
      continues lg oracle es tol fuel gamma →
      (run lg oracle es tol fuel gamma p).1 =
        .ok ((next lg oracle es)^[fuel] gamma,
          match fuel with
          | 0 => p
          | _ + 1 => some (oracle ((next lg oracle es)^[fuel - 1] gamma))) := by
  intro fuel
  induction fuel with
  | zero => intro gamma p _; rfl
  | succ n ih =>
    intro gamma p h
    have hAt : continuesAt lg oracle es tol gamma := by
      simpa using h 0 (Nat.succ_pos n)
    have hcont : continues lg oracle es tol n (next lg oracle es gamma) := by
      intro i hi
      have hh := h (i + 1) (Nat.succ_lt_succ hi)
      rwa [Function.iterate_succ_apply] at hh
    rw [run_succ_continue lg oracle es tol n gamma p hAt]
    have hr := ih (next lg oracle es gamma) (some (oracle gamma)) hcont
    cases n with
    | zero => exact hr
    | succ m => exact hr

end Mono

namespace ML

/-- The density estimate the loop computes from the oracle's partition at
resolutions (γ, ω). -/
def estOf (oracle : ℚ → ℚ → Partition) (intra inter : List Edge)
    (layer : ℕ → ℕ) (N T : ℕ) (s : ℚ × ℚ) : ℚ × ℚ × ℚ × ℕ :=
  estimate_SBM_parameters intra inter layer (oracle s.1 s.2).mem N T
    (oracle s.1 s.2).K

/-- The (γ, ω) produced by one successful loop iteration from (γ, ω). -/
def next (lg : ℚ → ℚ) (oracle : ℚ → ℚ → Partition) (intra inter : List Edge)
    (layer : ℕ → ℕ) (N T : ℕ) (wmax : ℚ) (s : ℚ × ℚ) : ℚ × ℚ :=
  match update_gamma lg (estOf oracle intra inter layer N T s).1
          (estOf oracle intra inter layer N T s).2.1,
        update_omega lg wmax (estOf oracle intra inter layer N T s).1
          (estOf oracle intra inter layer N T s).2.1
          (estOf oracle intra inter layer N T s).2.2.1
          (estOf oracle intra inter layer N T s).2.2.2 with
  | .ok g', .ok w' => (g', w')
  | _, _ => (0, 0)

/-- One iteration from (γ, ω) neither degenerates, nor fails either
update, nor meets both tolerance tests. -/
def continuesAt (lg : ℚ → ℚ) (oracle : ℚ → ℚ → Partition)
    (intra inter : List Edge) (layer : ℕ → ℕ) (N T : ℕ)
    (gtol wtol wmax : ℚ) (s : ℚ × ℚ) : Prop :=
  ¬((estOf oracle intra inter layer N T s).1 = 0 ∨
    (estOf oracle intra inter layer N T s).1 = 1 ∨
    (estOf oracle intra inter layer N T s).2.1 = 1) ∧
  update_gamma lg (estOf oracle intra inter layer N T s).1
      (estOf oracle intra inter layer N T s).2.1 =
    .ok (next lg oracle intra inter layer N T wmax s).1 ∧
  update_omega lg wmax (estOf oracle intra inter layer N T s).1
      (estOf oracle intra inter layer N T s).2.1
      (estOf oracle intra inter layer N T s).2.2.1
      (estOf oracle intra inter layer N T s).2.2.2 =
    .ok (next lg oracle intra inter layer N T wmax s).2 ∧
  ¬(|(next lg oracle intra inter layer N T wmax s).1 - s.1| < gtol ∧
    |(next lg oracle intra inter layer N T wmax s).2 - s.2| < wtol)

/-- All `fuel` budgeted iterations keep iterating. -/
def continues (lg : ℚ → ℚ) (oracle : ℚ → ℚ → Partition)
    (intra inter : List Edge) (layer : ℕ → ℕ) (N T : ℕ)
    (gtol wtol wmax : ℚ) (fuel : ℕ) (s : ℚ × ℚ) : Prop :=
  ∀ i < fuel, continuesAt lg oracle intra inter layer N T gtol wtol wmax
    ((next lg oracle intra inter layer N T wmax)^[i] s)

/-- A continuing iteration unfolds one multilayer loop step to the
recursive call with the updated (γ, ω) and the fresh partition. -/
lemma run_succ_continue_ml (lg : ℚ → ℚ) (oracle : ℚ → ℚ → Partition)
    (intra inter : List Edge) (layer : ℕ → ℕ) (N T : ℕ)
    (gtol wtol wmax : ℚ) (n : ℕ) (gamma omega : ℚ) (p : Option Partition)
    (hAt : continuesAt lg oracle intra inter layer N T gtol wtol wmax
      (gamma, omega)) :
    run lg oracle intra inter layer N T gtol wtol wmax (n + 1) gamma omega
        p =
      ((run lg oracle intra inter layer N T gtol wtol wmax n
          (next lg oracle intra inter layer N T wmax (gamma, omega)).1
          (next lg oracle intra inter layer N T wmax (gamma, omega)).2
          (some (oracle gamma omega))).1,
       (gamma, omega) ::
         (run lg oracle intra inter layer N T gtol wtol wmax n
           (next lg oracle intra inter layer N T wmax (gamma, omega)).1
           (next lg oracle intra inter layer N T wmax (gamma, omega)).2
           (some (oracle gamma omega))).2) := by
  obtain ⟨hdeg, hupd, hupdw, htol⟩ := hAt
  simp only [estOf] at hdeg
  simp only [run]
  rw [if_neg hdeg]
  split
  · next e heq =>
    rw [show update_gamma lg
        (estimate_SBM_parameters intra inter layer (oracle gamma omega).mem
          N T (oracle gamma omega).K).1
        (estimate_SBM_parameters intra inter layer (oracle gamma omega).mem
          N T (oracle gamma omega).K).2.1 =
        .ok (next lg oracle intra inter layer N T wmax (gamma, omega)).1
      from hupd] at heq
    cases heq
  · next g' heq =>
    rw [show update_gamma lg
        (estimate_SBM_parameters intra inter layer (oracle gamma omega).mem
          N T (oracle gamma omega).K).1
        (estimate_SBM_parameters intra inter layer (oracle gamma omega).mem
          N T (oracle gamma omega).K).2.1 =
        .ok (next lg oracle intra inter layer N T wmax (gamma, omega)).1
      from hupd] at heq
    injection heq with hg
    split
    · next e heqw =>
      rw [show update_omega lg wmax
          (estimate_SBM_parameters intra inter layer (oracle gamma omega).mem
            N T (oracle gamma omega).K).1
          (estimate_SBM_parameters intra inter layer (oracle gamma omega).mem
            N T (oracle gamma omega).K).2.1
          (estimate_SBM_parameters intra inter layer (oracle gamma omega).mem
            N T (oracle gamma omega).K).2.2.1
          (estimate_SBM_parameters intra inter layer (oracle gamma omega).mem
            N T (oracle gamma omega).K).2.2.2 =
          .ok (next lg oracle intra inter layer N T wmax (gamma, omega)).2
        from hupdw] at heqw
      cases heqw
    · next w' heqw =>
      rw [show update_omega lg wmax
          (estimate_SBM_parameters intra inter layer (oracle gamma omega).mem
            N T (oracle gamma omega).K).1
          (estimate_SBM_parameters intra inter layer (oracle gamma omega).mem
            N T (oracle gamma omega).K).2.1
          (estimate_SBM_parameters intra inter layer (oracle gamma omega).mem
            N T (oracle gamma omega).K).2.2.1
          (estimate_SBM_parameters intra inter layer (oracle gamma omega).mem
            N T (oracle gamma omega).K).2.2.2 =
          .ok (next lg oracle intra inter layer N T wmax (gamma, omega)).2
        from hupdw] at heqw
      injection heqw with hw
      subst hg
      subst hw
      rw [if_neg htol]

/-- A continuing multilayer run exhausts its budget and returns the final
(γ, ω) with the last partition obtained from the oracle. -/
lemma run_exhaust_ml (lg : ℚ → ℚ) (oracle : ℚ → ℚ → Partition)
    (intra inter : List Edge) (layer : ℕ → ℕ) (N T : ℕ)
    (gtol wtol wmax : ℚ) :
    ∀ (fuel : ℕ) (gamma omega : ℚ) (p : Option Partition),
      continues lg oracle intra inter layer N T gtol wtol wmax fuel
        (gamma, omega) →
      (run lg oracle intra inter layer N T gtol wtol wmax fuel gamma omega
          p).1 =
        .ok (((next lg oracle intra inter layer N T wmax)^[fuel]
            (gamma, omega)).1,
          ((next lg oracle intra inter layer N T wmax)^[fuel]
            (gamma, omega)).2,
          match fuel with
          | 0 => p
          | _ + 1 =>
            some (oracle
              ((next lg oracle intra inter layer N T wmax)^[fuel - 1]
                (gamma, omega)).1
              ((next lg oracle intra inter layer N T wmax)^[fuel - 1]
                (gamma, omega)).2)) := by
  intro fuel
  induction fuel with
  | zero => intro gamma omega p _; rfl
  | succ n ih =>
    intro gamma omega p h
    have hAt : continuesAt lg oracle intra inter layer N T gtol wtol wmax
        (gamma, omega) := by
      simpa using h 0 (Nat.succ_pos n)
    have hcont : continues lg oracle intra inter layer N T gtol wtol wmax n
        (next lg oracle intra inter layer N T wmax (gamma, omega)) := by
      intro i hi
      have hh := h (i + 1) (Nat.succ_lt_succ hi)
      rwa [Function.iterate_succ_apply] at hh
    rw [run_succ_continue_ml lg oracle intra inter layer N T gtol wtol wmax n
      gamma omega p hAt]
    have hr := ih (next lg oracle intra inter layer N T wmax (gamma, omega)).1
      (next lg oracle intra inter layer N T wmax (gamma, omega)).2
      (some (oracle gamma omega)) hcont
    cases n with
    | zero =>
      rw [hr]
      rfl
    | succ m =>
      rw [hr]
      rfl

end ML

/-- With model "temporal" and a well-formed multilayer structure, the entry
point reduces to its iteration loop (all up-front checks pass). -/
lemma entry_temporal_eq_run (lg : ℚ → ℚ) (oracle : ℚ → ℚ → Partition)
    (intra inter : List Edge) (layer_vec : List ℕ) (intraV interV : ℕ)
    (gamma omega gtol wtol wmax : ℚ) (max_iter : ℕ)
    (hsz : interV = intraV ∧
      interV % (layer_vec.foldl Nat.max 0 + 1) = 0 ∧
      intraV % (layer_vec.foldl Nat.max 0 + 1) = 0)
    (hcross : ∀ e ∈ intra, layer_vec.getD e.src 0 = layer_vec.getD e.tgt 0) :
    iterative_multilayer_resolution_parameter_estimation lg oracle intra
        inter layer_vec intraV interV gamma omega gtol wtol wmax max_iter
        "temporal" =
      ML.run lg oracle intra inter (fun v => layer_vec.getD v 0)
        (interV / (layer_vec.foldl Nat.max 0 + 1))
        (layer_vec.foldl Nat.max 0 + 1) gtol wtol wmax max_iter gamma omega
        none := by
  unfold iterative_multilayer_resolution_parameter_estimation
  rw [if_pos (Or.inl rfl), if_neg (not_not_intro hsz)]
  have hf : intra.find? (fun e =>
      layer_vec.getD e.src 0 != layer_vec.getD e.tgt 0) = none := by
    rw [List.find?_eq_none]
    intro e he
    simpa using hcross e he
  rw [hf]

/-- C9: when all `max_iter` iterations run without degeneracy, update
failure, or meeting the tolerance, neither entry point raises: the
monolayer entry returns the last computed γ with the last oracle
partition, and the multilayer entry (model "temporal", well-formed input)
returns the last computed (γ, ω) with the last oracle partition. -/
theorem c9_exhaustion_returns :
    (∀ (lg : ℚ → ℚ) (oracle : ℚ → Partition) (es : List Edge)
        (gamma tol : ℚ) (max_iter : ℕ),
      0 < max_iter →
      Mono.continues lg oracle es tol max_iter gamma →
      (iterative_monolayer_resolution_parameter_estimation lg oracle es
          gamma tol max_iter).1 =
        .ok ((Mono.next lg oracle es)^[max_iter] gamma,
          some (oracle ((Mono.next lg oracle es)^[max_iter - 1] gamma)))) ∧
    (∀ (lg : ℚ → ℚ) (oracle : ℚ → ℚ → Partition) (intra inter : List Edge)
        (layer_vec : List ℕ) (intraV interV : ℕ)
        (gamma omega gtol wtol wmax : ℚ) (max_iter : ℕ),
      0 < max_iter →
      (interV = intraV ∧
        interV % (layer_vec.foldl Nat.max 0 + 1) = 0 ∧
        intraV % (layer_vec.foldl Nat.max 0 + 1) = 0) →
      (∀ e ∈ intra, layer_vec.getD e.src 0 = layer_vec.getD e.tgt 0) →
      ML.continues lg oracle intra inter (fun v => layer_vec.getD v 0)
        (interV / (layer_vec.foldl Nat.max 0 + 1))
        (layer_vec.foldl Nat.max 0 + 1) gtol wtol wmax max_iter
        (gamma, omega) →
      (iterative_multilayer_resolution_parameter_estimation lg oracle intra
          inter layer_vec intraV interV gamma omega gtol wtol wmax max_iter
          "temporal").1 =
        .ok (((ML.next lg oracle intra inter (fun v => layer_vec.getD v 0)
              (interV / (layer_vec.foldl Nat.max 0 + 1))
              (layer_vec.foldl Nat.max 0 + 1) wmax)^[max_iter]
            (gamma, omega)).1,
          ((ML.next lg oracle intra inter (fun v => layer_vec.getD v 0)
              (interV / (layer_vec.foldl Nat.max 0 + 1))
              (layer_vec.foldl Nat.max 0 + 1) wmax)^[max_iter]
            (gamma, omega)).2,
          some (oracle
            ((ML.next lg oracle intra inter (fun v => layer_vec.getD v 0)
                (interV / (layer_vec.foldl Nat.max 0 + 1))
                (layer_vec.foldl Nat.max 0 + 1) wmax)^[max_iter - 1]
              (gamma, omega)).1
            ((ML.next lg oracle intra inter (fun v => layer_vec.getD v 0)
                (interV / (layer_vec.foldl Nat.max 0 + 1))
                (layer_vec.foldl Nat.max 0 + 1) wmax)^[max_iter - 1]
              (gamma, omega)).2))) := by
  constructor
  · intro lg oracle es gamma tol max_iter hpos hcont
    obtain ⟨k, rfl⟩ : ∃ k, max_iter = k + 1 :=
      ⟨max_iter - 1, (Nat.succ_pred_eq_of_pos hpos).symm⟩
    exact Mono.run_exhaust lg oracle es tol (k + 1) gamma none hcont
  · intro lg oracle intra inter layer_vec intraV interV gamma omega gtol
      wtol wmax max_iter hpos hsz hcross hcont
    obtain ⟨k, rfl⟩ : ∃ k, max_iter = k + 1 :=
      ⟨max_iter - 1, (Nat.succ_pred_eq_of_pos hpos).symm⟩
    rw [entry_temporal_eq_run lg oracle intra inter layer_vec intraV interV
      gamma omega gtol wtol wmax (k + 1) hsz hcross]
    exact ML.run_exhaust_ml lg oracle intra inter (fun v => layer_vec.getD v 0)
      (interV / (layer_vec.foldl Nat.max 0 + 1))
      (layer_vec.foldl Nat.max 0 + 1) gtol wtol wmax (k + 1) gamma omega
      none hcont

/-- Concrete log stand-in for the C9 witness run. -/
def c9lg : ℚ → ℚ := fun q => q

/-- Concrete monolayer graph for the C9 witness run. -/
def c9es : List Edge := [⟨0, 1, 1⟩, ⟨2, 3, 1⟩]

/-- Concrete monolayer oracle for the C9 witness run: always the
two-community partition 0,0,1,1. -/
def c9monoOracle : ℚ → Partition :=
  fun _ => ⟨fun v => if v ≤ 1 then 0 else 1, 2⟩

/-- Concrete intralayer graph for the C9 witness run. -/
def c9intra : List Edge :=
  [⟨0, 1, 1⟩, ⟨2, 3, 1⟩, ⟨0, 2, 1⟩, ⟨4, 5, 1⟩, ⟨6, 7, 1⟩, ⟨4, 6, 1⟩]

/-- Concrete interlayer graph for the C9 witness run. -/
def c9inter : List Edge := [⟨0, 4, 1⟩, ⟨1, 5, 1⟩, ⟨2, 6, 1⟩, ⟨3, 7, 1⟩]

/-- Concrete layer vector for the C9 witness run (two layers of four). -/
def c9lvec : List ℕ := [0, 0, 0, 0, 1, 1, 1, 1]

/-- Concrete multilayer oracle for the C9 witness run: always the
partition 0,0,1,1,0,0,1,1 (K = 2). -/
def c9mlOracle : ℚ → ℚ → Partition :=
  fun _ _ => ⟨fun v => if v % 4 ≤ 1 then 0 else 1, 2⟩

/-- Monolayer estimate at the C9 witness partition. -/
lemma c9_mono_est :
    Mono.estimate_SBM_parameters c9es (fun v => if v ≤ 1 then 0 else 1) 2 =
      (2, 0) := by
  have hr : List.range 2 = [0, 1] := rfl
  norm_num [Mono.estimate_SBM_parameters, Mono.m_in, Mono.sum_kappa_sqr,
    Mono.kappa_r_eq_spec, Mono.kappaSpec, c9es, hr, Prod.ext_iff]

/-- The γ produced by one C9 witness iteration: 2 / lg 2 = 1. -/
lemma c9_mono_next (gamma : ℚ) : Mono.next c9lg c9monoOracle c9es gamma = 1 := by
  unfold Mono.next Mono.estOf c9monoOracle
  rw [show Mono.estimate_SBM_parameters c9es
      (fun v => if v ≤ 1 then 0 else 1) 2 = (2, 0) from c9_mono_est]
  norm_num [Mono.update_gamma, qdivE, c9lg]

/-- The C9 witness monolayer run keeps iterating through its whole
one-iteration budget. -/
lemma c9_mono_continues :
    Mono.continues c9lg c9monoOracle c9es 1 1 0 := by
  intro i hi
  have h0 : i = 0 := by omega
  subst h0
  refine ⟨?_, ?_, ?_⟩
  · show ¬((Mono.estOf c9monoOracle c9es 0).1 = 0 ∨
      (Mono.estOf c9monoOracle c9es 0).1 = 1)
    unfold Mono.estOf c9monoOracle
    rw [show Mono.estimate_SBM_parameters c9es
        (fun v => if v ≤ 1 then 0 else 1) 2 = (2, 0) from c9_mono_est]
    norm_num
  · show Mono.update_gamma c9lg (Mono.estOf c9monoOracle c9es 0).1
        (Mono.estOf c9monoOracle c9es 0).2 =
      .ok (Mono.next c9lg c9monoOracle c9es 0)
    rw [c9_mono_next]
    unfold Mono.estOf c9monoOracle
    rw [show Mono.estimate_SBM_parameters c9es
        (fun v => if v ≤ 1 then 0 else 1) 2 = (2, 0) from c9_mono_est]
    norm_num [Mono.update_gamma, qdivE, c9lg]
  · show ¬(|Mono.next c9lg c9monoOracle c9es 0 - 0| < 1)
    rw [c9_mono_next]
    norm_num

/-- Multilayer estimate at the C9 witness partition: θ_in = 8/3,
θ_out = 4, p = 1, K = 2. -/
lemma c9_ml_est :
    ML.estimate_SBM_parameters c9intra c9inter (fun v => c9lvec.getD v 0)
      (fun v => if v % 4 ≤ 1 then 0 else 1) 4 2 2 = (8/3, 4, 1, 2) := by
  have hr : List.range 2 = [0, 1] := rfl
  norm_num [ML.estimate_SBM_parameters, ML.m_t_in_eq_double, ML.w_t_in,
    ML.m_t_eq, ML.sum_kappa_t_sqr, ML.kappa_t_r_eq, ML.calculate_persistence,
    c9intra, c9inter, c9lvec, hr, Prod.ext_iff]

/-- The (γ, ω) produced by one C9 witness multilayer iteration. -/
lemma c9_ml_next :
    ML.next c9lg c9mlOracle c9intra c9inter (fun v => c9lvec.getD v 0)
      4 2 1000 (0, 0) = (1, 1000) := by
  simp only [ML.next, ML.estOf, c9mlOracle]
  rw [show ML.estimate_SBM_parameters c9intra c9inter
      (fun v => c9lvec.getD v 0) (fun v => if v % 4 ≤ 1 then 0 else 1)
      4 2 2 = (8/3, 4, 1, 2) from c9_ml_est]
  norm_num [ML.update_gamma, ML.update_omega, qdivE, c9lg, Prod.ext_iff]

/-- The C9 witness multilayer run keeps iterating through its whole
one-iteration budget. -/
lemma c9_ml_continues :
    ML.continues c9lg c9mlOracle c9intra c9inter
      (fun v => c9lvec.getD v 0) 4 2 (1/2) (1/2) 1000 1 (0, 0) := by
  intro i hi
  have h0 : i = 0 := by omega
  subst h0
  show ML.continuesAt c9lg c9mlOracle c9intra c9inter
    (fun v => c9lvec.getD v 0) 4 2 (1/2) (1/2) 1000 (0, 0)
  refine ⟨?_, ?_, ?_, ?_⟩
  · show ¬((ML.estOf c9mlOracle c9intra c9inter
        (fun v => c9lvec.getD v 0) 4 2 (0, 0)).1 = 0 ∨ _ ∨ _)
    simp only [ML.estOf, c9mlOracle]
    rw [show ML.estimate_SBM_parameters c9intra c9inter
        (fun v => c9lvec.getD v 0) (fun v => if v % 4 ≤ 1 then 0 else 1)
        4 2 2 = (8/3, 4, 1, 2) from c9_ml_est]
    norm_num
  · show ML.update_gamma c9lg _ _ = .ok (ML.next c9lg c9mlOracle c9intra
      c9inter (fun v => c9lvec.getD v 0) 4 2 1000 (0, 0)).1
    rw [c9_ml_next]
    simp only [ML.estOf, c9mlOracle]
    rw [show ML.estimate_SBM_parameters c9intra c9inter
        (fun v => c9lvec.getD v 0) (fun v => if v % 4 ≤ 1 then 0 else 1)
        4 2 2 = (8/3, 4, 1, 2) from c9_ml_est]
    norm_num [ML.update_gamma, qdivE, c9lg]
  · show ML.update_omega c9lg 1000 _ _ _ _ = .ok (ML.next c9lg c9mlOracle
      c9intra c9inter (fun v => c9lvec.getD v 0) 4 2 1000 (0, 0)).2
    rw [c9_ml_next]
    simp only [ML.estOf, c9mlOracle]
    rw [show ML.estimate_SBM_parameters c9intra c9inter
        (fun v => c9lvec.getD v 0) (fun v => if v % 4 ≤ 1 then 0 else 1)
        4 2 2 = (8/3, 4, 1, 2) from c9_ml_est]
    norm_num [ML.update_omega, qdivE, c9lg]
  · show ¬(|(ML.next c9lg c9mlOracle c9intra c9inter
        (fun v => c9lvec.getD v 0) 4 2 1000 (0, 0)).1 - (0, 0).1| < 1/2 ∧
      |(ML.next c9lg c9mlOracle c9intra c9inter
        (fun v => c9lvec.getD v 0) 4 2 1000 (0, 0)).2 - (0, 0).2| < 1/2)
    rw [c9_ml_next]
    norm_num

/-- Witness for C9: both entry points, run for one iteration that does not
meet tolerance, return ok with the iterated parameters and the oracle's
last partition. -/
theorem c9_exhaustion_returns_witness :
    (iterative_monolayer_resolution_parameter_estimation c9lg c9monoOracle
        c9es 0 1 1).1 =
      .ok ((Mono.next c9lg c9monoOracle c9es)^[1] 0,
        some (c9monoOracle ((Mono.next c9lg c9monoOracle c9es)^[1 - 1] 0))) ∧
    (iterative_multilayer_resolution_parameter_estimation c9lg c9mlOracle
        c9intra c9inter c9lvec 8 8 0 0 (1/2) (1/2) 1000 1 "temporal").1 =
      .ok (((ML.next c9lg c9mlOracle c9intra c9inter
            (fun v => c9lvec.getD v 0) (8 / (c9lvec.foldl Nat.max 0 + 1))
            (c9lvec.foldl Nat.max 0 + 1) 1000)^[1] (0, 0)).1,
        ((ML.next c9lg c9mlOracle c9intra c9inter
            (fun v => c9lvec.getD v 0) (8 / (c9lvec.foldl Nat.max 0 + 1))
            (c9lvec.foldl Nat.max 0 + 1) 1000)^[1] (0, 0)).2,
        some (c9mlOracle
          ((ML.next c9lg c9mlOracle c9intra c9inter
              (fun v => c9lvec.getD v 0) (8 / (c9lvec.foldl Nat.max 0 + 1))
              (c9lvec.foldl Nat.max 0 + 1) 1000)^[1 - 1] (0, 0)).1
          ((ML.next c9lg c9mlOracle c9intra c9inter
              (fun v => c9lvec.getD v 0) (8 / (c9lvec.foldl Nat.max 0 + 1))
              (c9lvec.foldl Nat.max 0 + 1) 1000)^[1 - 1] (0, 0)).2)) := by
  constructor
  · exact c9_exhaustion_returns.1 c9lg c9monoOracle c9es 0 1 1
      (by norm_num) c9_mono_continues
  · refine c9_exhaustion_returns.2 c9lg c9mlOracle c9intra c9inter c9lvec
      8 8 0 0 (1/2) (1/2) 1000 1 (by norm_num)
      ⟨rfl, by decide, by decide⟩ (by decide) ?_
    have h2 : c9lvec.foldl Nat.max 0 + 1 = 2 := by decide
    rw [h2]
    rw [show (8 : ℕ) / 2 = 4 from rfl]
    exact c9_ml_continues
